import Mathlib

/-!
Verification of the output-aggregation library of `sourcegraph/run`.

The Go source is shallowly embedded: bytes are modelled as `Nat`, byte
streams as `List Byte`, Go errors as the inductive `Err`, and each Go
function of interest as a Lean function that mirrors its control flow.
The embedded functions are:

* `newError`, `runErrorExitCode`, `ExitCode` — the error model
  (`src/unnamed/part_004`, `src/command_test.go` second section);
* `scanGo` — `bufio.Scanner` with the `ScanLines` split function and its
  default 65536-byte token limit, as used by every line-oriented path;
* `runChain`, `processTokens`, `mappedLinePipe`, `aggMappedLinePipe` —
  the per-line transform machinery of `commandOutput.mappedLinePipe`
  (`src/output.go`) and `aggregator.mappedLinePipe`
  (`src/output_aggregator.go`), writing to a destination (`Dst`) that
  may fail, as Go `io.Writer`s can;
* `aggWait`, `aggWriteTo`, `aggStreamLines`, `aggLines`, `aggRead` — the
  aggregator consumption façade (`src/output_aggregator.go`);
* `NioPipe` and friends — the buffered relay pipe (external dependency
  `github.com/djherbis/nio`), modelled from the specification;
* `CmdOutState`, `waitAndClose`, `applyCmdOp` — the `commandOutput`
  handle and its `sync.Once`-guarded completion (`src/output.go`);
* `commandOutputString`, `goTrimSuffix` — `commandOutput.String`.
-/

/-- A byte of process output.  Only equality on bytes matters to the
library (newline 10, carriage return 13, whitespace), so plain `Nat`
values standing for the byte values are used. -/
abbrev Byte := Nat

/-- The `*runError` tagged union of `src/unnamed/part_004`: either a
non-exec error (build / start / IO failure, carried here as its message)
or an `*exec.ExitError` carrying the exit code together with the trimmed
captured stderr that `newError` assigns to it. -/
inductive RunError where
  | nonExec (msg : String)
  | exec (code : Int) (stderr : List Byte)
deriving DecidableEq

/-- Go error values that can reach `ExitCode` or be returned by the
aggregation handles.  `run` wraps a `*runError`; `exitCoder` stands for
any other dynamic type implementing the `ExitCoder` interface; the
remaining constructors are the concrete sentinel errors the library
uses (`closedPipe` is `io.ErrClosedPipe`, returned by reads after the
read half of the relay pipe has been closed); only `run` and
`exitCoder` implement `ExitCoder`. -/
inductive Err where
  | run (e : RunError)
  | exitCoder (code : Int) (msg : String)
  | plain (msg : String)
  | finalized
  | alreadyConsumed
  | eofErr
  | tooLong
  | closedPipe
  | stageErr (msg : String)
deriving DecidableEq

/-- Result of `cmd.Wait()`: success, an `*exec.ExitError` with an exit
code, or any other error (modelled by its message). -/
inductive ExecStatus where
  | success
  | exitError (code : Int)
  | otherError (msg : String)
deriving DecidableEq

/-- Go `unicode.IsSpace` restricted to the ASCII bytes `bytes.TrimSpace`
can meet in this library: space, tab, newline, vertical tab, form feed,
carriage return. -/
def isAsciiSpace (c : Byte) : Bool :=
  c = 32 || c = 9 || c = 10 || c = 11 || c = 12 || c = 13

/-- Model of `bytes.TrimSpace`: drop whitespace from both ends. -/
def trimSpace (b : List Byte) : List Byte :=
  (b.dropWhile isAsciiSpace).reverse.dropWhile isAsciiSpace |>.reverse

/-- Model of `newError` (`src/unnamed/part_004` lines 19-38): `nil` in
gives `nil` out; an `*exec.ExitError` is wrapped with the trimmed stderr
copy attached; any other error is wrapped as a non-exec `runError`. -/
def newError (st : ExecStatus) (stderr : List Byte) : Option RunError :=
  match st with
  | .success => none
  | .exitError code => some (.exec code (trimSpace stderr))
  | .otherError msg => some (.nonExec msg)

/-- Model of `(*runError).ExitCode` (`src/unnamed/part_004` lines
54-60): 1 for the non-exec variant, the carried code otherwise. -/
def runErrorExitCode : RunError → Int
  | .nonExec _ => 1
  | .exec code _ => code

/-- Model of the Go type assertion `err.(ExitCoder)`: `some code` when
the dynamic type of the error has an `ExitCode() int` method (only
`*runError` and the `exitCoder` stand-in do), `none` otherwise. -/
def asExitCoder : Err → Option Int
  | .run e => some (runErrorExitCode e)
  | .exitCoder code _ => some code
  | _ => none

/-- Model of `ExitCode` (`src/command_test.go` second section, lines
275-285): 0 for nil, the carried code when the error implements
`ExitCoder`, otherwise 1. -/
def ExitCode (err : Option Err) : Int :=
  match err with
  | none => 0
  | some e =>
    match asExitCoder e with
    | some code => code
    | none => 1

/-! ## Line scanner

`bufio.Scanner` with the default `ScanLines` split function, as used by
`mappedLinePipe` and `lineWriter`.  `ScanLines` splits on the byte 10,
strips one trailing carriage return 13 from each token, emits no final
token for an empty unterminated remainder, and fails with
`bufio.ErrTooLong` when a token does not fit in the default buffer of
`bufio.MaxScanTokenSize` bytes.  A token can be delivered only when it
is strictly shorter than that buffer: a terminated token needs its
terminator buffered too, and for an unterminated final token the full
buffer fails before the scanner can observe EOF. -/

/-- Cut a byte stream at every newline byte 10.  Each segment is paired
with `true` when it was newline-terminated.  The final segment (paired
with `false`) holds the bytes after the last newline, possibly none. -/
def splitSegs (input : List Byte) : List (List Byte × Bool) :=
  input.foldr
    (fun c acc =>
      if c = 10 then ([], true) :: acc
      else
        match acc with
        | [] => [([c], false)]
        | (seg, term) :: rest => ((c :: seg), term) :: rest)
    [([], false)]

/-- The token stream of `bufio.Scanner`+`ScanLines` before the length
check: like `splitSegs`, except that an empty unterminated remainder
yields no token (`Scan` returns false at once at EOF). -/
def scanSegs (input : List Byte) : List (List Byte × Bool) :=
  let segs := splitSegs input
  if segs.getLast? = some ([], false) then segs.dropLast else segs

/-- The `dropCR` helper of `bufio.ScanLines`: strip one trailing
carriage return from a token. -/
def dropCR (t : List Byte) : List Byte :=
  if t.getLast? = some 13 then t.dropLast else t

/-- `bufio.MaxScanTokenSize`, the default scanner buffer limit. -/
def maxScanTokenSize : Nat := 65536

/-- Walk the segments as `Scan` does: a segment strictly shorter than
the buffer is emitted (carriage return stripped); the first segment of
`maxScanTokenSize` or more bytes stops the scan with the too-long flag
set, dropping it and everything after it (for a terminated segment the
newline no longer fits the buffer; for the final unterminated segment
the buffer fills before EOF is observed). -/
def scanWalk : List (List Byte × Bool) → List (List Byte) × Bool
  | [] => ([], false)
  | (t, _) :: rest =>
    if t.length < maxScanTokenSize then
      let r := scanWalk rest
      (dropCR t :: r.1, r.2)
    else ([], true)

/-- Full scanner model: the ordered tokens `Scan` yields, and whether
the scan ended in `bufio.ErrTooLong`. -/
def scanGo (input : List Byte) : List (List Byte) × Bool :=
  scanWalk (scanSegs input)

/-! ## Transform chain

A `LineMap` stage is a Go function `(ctx, line, dst) -> (int, error)`.
A pure stage is fully described by the sequence of `Write` calls it
makes on `dst` (the shared `tracedBuffer`), the `int` it returns, and
its error.  `tracedBuffer.writeCalled` (`src/line_filter_test.go`
second section) is true exactly when the stage made at least one
`Write` call, even one with empty content. -/

/-- Observable behaviour of one `LineMap` stage on one line: the
`Write` calls it performs on `dst` in order (an empty inner list is a
`Write` of zero-length content), its returned byte count, and its
returned error. -/
structure StageAct where
  writes : List (List Byte)
  ret : Nat
  err : Option Err

/-- A transform stage: the behaviour it exhibits on each input line. -/
abbrev Stage := List Byte → StageAct

/-- Outcome of the inner `for _, f := range o.mapFuncs` loop of
`mappedLinePipe` on one line: a stage error returned immediately, a
break because the stage reported zero bytes buffered, or the loop
running off the end of the chain.  In the latter two cases the final
`writeCalled` flag and the current line content are carried out. -/
inductive ChainRes where
  | errored (e : Err)
  | broke (writeCalled : Bool) (line : List Byte)
  | ran (writeCalled : Bool) (line : List Byte)
deriving DecidableEq

/-- Model of the stage loop of `commandOutput.mappedLinePipe`
(`src/output.go` lines 259-276): each stage is applied to the current
line; a stage error aborts; `writeCalled` is replaced by this stage's
`tracedBuffer.writeCalled` flag; a zero returned count breaks out of
the loop keeping the current line; otherwise the buffered bytes (the
concatenation of the stage's writes) become the line for the next
stage.  `wc` starts as `true` so an empty chain writes the whole
line. -/
def runChain : List Stage → Bool → List Byte → ChainRes
  | [], wc, line => .ran wc line
  | f :: fs, _, line =>
    let a := f line
    match a.err with
    | some e => .errored e
    | none =>
      let wc2 := !a.writes.isEmpty
      if a.ret = 0 then .broke wc2 line
      else runChain fs wc2 a.writes.flatten

/-- A destination writer: Go's `io.Writer` as the line pipes observe
it.  Given the index of this `dst.Write` call within the pipe run
(stateful writers may fail only after some writes) and the bytes
written, it returns Go's `(n, err)`. -/
abbrev Dst := Nat → List Byte → Nat × Option Err

/-- A destination that accepts every write in full: `lineWriter`
(`src/writer.go` returns `len(b), nil`) and `bytes.Buffer`. -/
def infallibleDst : Dst := fun _ b => (b.length, none)

/-- A destination whose `i`-th write call fails with `e` writing
nothing, all other calls succeeding — a failing downstream sink. -/
def failingDst (i : Nat) (e : Err) : Dst := fun k b =>
  if k = i then (0, some e) else (b.length, none)

/-- Result of a line pipe: the `Write` calls attempted on `dst` in
order, the total byte count `dst` reported written, and the returned
error. -/
structure PipeOut where
  writes : List (List Byte)
  total : Nat
  err : Option Err
deriving DecidableEq

/-- Model of the scan loop of `mappedLinePipe` (`src/output.go` lines
252-291) over the scanned tokens, threading the index of the next
`dst.Write` call: for each line, run the stage chain; on a stage error
return what was written so far with that error; otherwise, when the
final `writeCalled` flag is set and the resulting line has no trailing
newline, write the line with a newline appended to `dst` —
`totalWritten += written` either way, and a `dst` error is returned
immediately (`src/output.go` lines 282-286), aborting the loop. -/
def processTokens (maps : List Stage) (dst : Dst) : Nat → List (List Byte) → PipeOut
  | _, [] => ⟨[], 0, none⟩
  | k, t :: ts =>
    match runChain maps true t with
    | .errored e => ⟨[], 0, some e⟩
    | .broke wc l =>
      if wc && !([10].isSuffixOf l) then
        let w := dst k (l ++ [10])
        match w.2 with
        | some e => ⟨[l ++ [10]], w.1, some e⟩
        | none =>
          let r := processTokens maps dst (k + 1) ts
          ⟨(l ++ [10]) :: r.writes, w.1 + r.total, r.err⟩
      else processTokens maps dst k ts
    | .ran wc l =>
      if wc && !([10].isSuffixOf l) then
        let w := dst k (l ++ [10])
        match w.2 with
        | some e => ⟨[l ++ [10]], w.1, some e⟩
        | none =>
          let r := processTokens maps dst (k + 1) ts
          ⟨(l ++ [10]) :: r.writes, w.1 + r.total, r.err⟩
      else processTokens maps dst k ts

/-- Model of `commandOutput.mappedLinePipe` (`src/output.go` lines
237-294).  `readErr` is the error the underlying pipe reader yields
once drained (`none` for clean EOF); a stage or `dst` error is returned
from inside the loop, and after the loop `scanner.Err()` surfaces
`bufio.ErrTooLong` for an overlong line, else the read error. -/
def mappedLinePipe (maps : List Stage) (dst : Dst) (input : List Byte)
    (readErr : Option Err) : PipeOut :=
  let scanned := scanGo input
  let r := processTokens maps dst 0 scanned.1
  match r.err with
  | some e => ⟨r.writes, r.total, some e⟩
  | none => ⟨r.writes, r.total, if scanned.2 then some .tooLong else readErr⟩

/-- Model of `aggregator.mappedLinePipe` (`src/output_aggregator.go`
lines 175-232).  Identical loop — including the early return on a
stage or `dst` error (lines 199-201, 220-224) — but the function ends
with `return totalWritten, nil`: `scanner.Err()` is never consulted. -/
def aggMappedLinePipe (maps : List Stage) (dst : Dst) (input : List Byte) : PipeOut :=
  let scanned := scanGo input
  let r := processTokens maps dst 0 scanned.1
  ⟨r.writes, r.total, r.err⟩

/-- Model of `lineWriter.Write` (`src/writer.go`): each write is run
through its own scanner and the handler receives every token; applied
to all writes of a pipe it yields the lines a line-oriented consumer
(`Lines`, `StreamLines`) observes. -/
def linesFromWrites (ws : List (List Byte)) : List (List Byte) :=
  (ws.map (fun w => (scanGo w).1)).flatten

/-- Model of `commandOutput.WriteTo` (`src/output.go` lines 206-215):
with no map funcs the output is piped directly (`io.Copy`, modelled at
the granularity of one write call whose error `io.Copy` returns,
otherwise passing the pipe's terminal error through); with map funcs
the mapped line pipe runs. -/
def commandOutputWriteTo (maps : List Stage) (dst : Dst) (input : List Byte)
    (readErr : Option Err) : PipeOut :=
  if maps.isEmpty then
    let w := dst 0 input
    match w.2 with
    | some e => ⟨[input], w.1, some e⟩
    | none => ⟨[input], w.1, readErr⟩
  else mappedLinePipe maps dst input readErr

/-- Model of `commandOutput.Lines` (`src/output.go` lines 156-175): the
mapped line pipe writes into a `lineWriter` (which never fails and
reports full counts) that sends each scanned line over a channel; the
aggregated lines and the pipe's error are returned. -/
def commandOutputLines (maps : List Stage) (input : List Byte)
    (readErr : Option Err) : List (List Byte) × Option Err :=
  let r := mappedLinePipe maps infallibleDst input readErr
  (linesFromWrites r.writes, r.err)

/-- A pass-through stage, as in the repository's own test
(`src/command_test.go` line 101): `return dst.Write(line)`. -/
def passThroughStage : Stage := fun l => ⟨[l], l.length, none⟩

/-- A stage that performs no write call on any line and reports zero
bytes, the behaviour of a conforming eliding `LineMap`. -/
def noWriteStage : Stage := fun _ => ⟨[], 0, none⟩

/-- A stage that calls `dst.Write` once with zero-length content and
returns the resulting count 0, mirroring `dst.Write([]byte{})`. -/
def emptyWriteStage : Stage := fun _ => ⟨[[]], 0, none⟩

/-- A stage that rewrites every line to `"a\n"` — content that already
carries a line terminator. -/
def nlStage : Stage := fun _ => ⟨[[97, 10]], 2, none⟩

/-! ## Chain composition lemmas -/

/-- Running a concatenated chain first runs the left part; only when it
runs off its end does the right part see the line. -/
theorem runChain_append (pre post : List Stage) (wc : Bool) (line : List Byte) :
    runChain (pre ++ post) wc line =
      match runChain pre wc line with
      | .errored e => .errored e
      | .broke wc2 l2 => .broke wc2 l2
      | .ran wc2 l2 => runChain post wc2 l2 := by
  induction pre generalizing wc line with
  | nil => simp [runChain]
  | cons f fs ih =>
    simp only [List.cons_append, runChain]
    cases (f line).err with
    | some e => simp
    | none =>
      by_cases h : (f line).ret = 0 <;> simp [h, ih]

/-- A token whose chain run ends with the `writeCalled` flag unset is
elided: for every destination and call index, `processTokens` produces
the same output as if the token were absent from the input (an elided
line makes no `dst` call, so later indices are unchanged too). -/
theorem processTokens_elide (maps : List Stage) (dst : Dst)
    (ts1 ts2 : List (List Byte)) (t : List Byte) (c : List Byte)
    (h : runChain maps true t = .broke false c ∨ runChain maps true t = .ran false c) :
    ∀ k, processTokens maps dst k (ts1 ++ t :: ts2)
      = processTokens maps dst k (ts1 ++ ts2) := by
  induction ts1 with
  | nil =>
    intro k
    simp only [List.nil_append, processTokens]
    rcases h with h | h <;> simp [h]
  | cons u us ih =>
    intro k
    simp only [List.cons_append, processTokens, List.append_eq, ih]

/-- Step lemma: a token that emits and whose destination write succeeds
contributes its write and advances the call index by one. -/
theorem processTokens_cons_emit (maps : List Stage) (dst : Dst) (k : Nat)
    (u : List Byte) (rest : List (List Byte)) (wc : Bool) (l : List Byte)
    (hrc : runChain maps true u = .broke wc l ∨ runChain maps true u = .ran wc l)
    (hemit : (wc && !([10].isSuffixOf l)) = true)
    (hw : (dst k (l ++ [10])).2 = none) :
    processTokens maps dst k (u :: rest)
      = ⟨(l ++ [10]) :: (processTokens maps dst (k + 1) rest).writes,
          (dst k (l ++ [10])).1 + (processTokens maps dst (k + 1) rest).total,
          (processTokens maps dst (k + 1) rest).err⟩ := by
  rcases hrc with hrc | hrc <;> simp [processTokens, hrc, hemit, hw]

/-- Step lemma: a token that does not emit leaves output and index
unchanged. -/
theorem processTokens_cons_skip (maps : List Stage) (dst : Dst) (k : Nat)
    (u : List Byte) (rest : List (List Byte)) (wc : Bool) (l : List Byte)
    (hrc : runChain maps true u = .broke wc l ∨ runChain maps true u = .ran wc l)
    (hemit : (wc && !([10].isSuffixOf l)) = false) :
    processTokens maps dst k (u :: rest) = processTokens maps dst k rest := by
  rcases hrc with hrc | hrc <;> simp [processTokens, hrc, hemit]

/-- Step lemma: a token that emits but whose destination write fails
aborts the pipe with the destination error and the count the
destination reported. -/
theorem processTokens_cons_emit_fail (maps : List Stage) (dst : Dst) (k : Nat)
    (u : List Byte) (rest : List (List Byte)) (wc : Bool) (l : List Byte) (e : Err)
    (hrc : runChain maps true u = .broke wc l ∨ runChain maps true u = .ran wc l)
    (hemit : (wc && !([10].isSuffixOf l)) = true)
    (hw : (dst k (l ++ [10])).2 = some e) :
    processTokens maps dst k (u :: rest)
      = ⟨[l ++ [10]], (dst k (l ++ [10])).1, some e⟩ := by
  rcases hrc with hrc | hrc <;> simp [processTokens, hrc, hemit, hw]

/-- When a prefix of tokens runs through the pipe without any error
(stage or destination), processing the concatenation first yields the
prefix output and then continues on the rest, with the `dst` call index
advanced by one per prefix write. -/
theorem processTokens_append (maps : List Stage) (dst : Dst)
    (ts2 : List (List Byte)) :
    ∀ (k : Nat) (ts1 : List (List Byte)),
      (processTokens maps dst k ts1).err = none →
      processTokens maps dst k (ts1 ++ ts2) =
        ⟨(processTokens maps dst k ts1).writes
            ++ (processTokens maps dst
                  (k + (processTokens maps dst k ts1).writes.length) ts2).writes,
          (processTokens maps dst k ts1).total
            + (processTokens maps dst
                (k + (processTokens maps dst k ts1).writes.length) ts2).total,
          (processTokens maps dst
              (k + (processTokens maps dst k ts1).writes.length) ts2).err⟩ := by
  intro k ts1
  induction ts1 generalizing k with
  | nil =>
    intro _
    simp [processTokens]
  | cons u us ih =>
    intro h
    cases hrc : runChain maps true u with
    | errored e =>
      rw [processTokens, hrc] at h
      exact absurd h (by simp)
    | broke wc l =>
      by_cases hemit : (wc && !([10].isSuffixOf l)) = true
      · cases hw : (dst k (l ++ [10])).2 with
        | some e =>
          rw [processTokens_cons_emit_fail maps dst k u us wc l e (Or.inl hrc)
            hemit hw] at h
          exact absurd h (by simp)
        | none =>
          rw [processTokens_cons_emit maps dst k u us wc l (Or.inl hrc) hemit hw] at h
          simp only at h
          rw [List.cons_append,
            processTokens_cons_emit maps dst k u (us ++ ts2) wc l (Or.inl hrc) hemit hw,
            processTokens_cons_emit maps dst k u us wc l (Or.inl hrc) hemit hw,
            ih (k + 1) h]
          have harith : k + ((processTokens maps dst (k + 1) us).writes.length + 1)
              = (k + 1) + (processTokens maps dst (k + 1) us).writes.length := by
            omega
          simp only [List.length_cons, harith]
          simp [Nat.add_assoc]
      · have hemitf : (wc && !([10].isSuffixOf l)) = false := by
          simpa using hemit
        rw [processTokens_cons_skip maps dst k u us wc l (Or.inl hrc) hemitf] at h
        rw [List.cons_append,
          processTokens_cons_skip maps dst k u (us ++ ts2) wc l (Or.inl hrc) hemitf,
          processTokens_cons_skip maps dst k u us wc l (Or.inl hrc) hemitf,
          ih k h]
    | ran wc l =>
      by_cases hemit : (wc && !([10].isSuffixOf l)) = true
      · cases hw : (dst k (l ++ [10])).2 with
        | some e =>
          rw [processTokens_cons_emit_fail maps dst k u us wc l e (Or.inr hrc)
            hemit hw] at h
          exact absurd h (by simp)
        | none =>
          rw [processTokens_cons_emit maps dst k u us wc l (Or.inr hrc) hemit hw] at h
          simp only at h
          rw [List.cons_append,
            processTokens_cons_emit maps dst k u (us ++ ts2) wc l (Or.inr hrc) hemit hw,
            processTokens_cons_emit maps dst k u us wc l (Or.inr hrc) hemit hw,
            ih (k + 1) h]
          have harith : k + ((processTokens maps dst (k + 1) us).writes.length + 1)
              = (k + 1) + (processTokens maps dst (k + 1) us).writes.length := by
            omega
          simp only [List.length_cons, harith]
          simp [Nat.add_assoc]
      · have hemitf : (wc && !([10].isSuffixOf l)) = false := by
          simpa using hemit
        rw [processTokens_cons_skip maps dst k u us wc l (Or.inr hrc) hemitf] at h
        rw [List.cons_append,
          processTokens_cons_skip maps dst k u (us ++ ts2) wc l (Or.inr hrc) hemitf,
          processTokens_cons_skip maps dst k u us wc l (Or.inr hrc) hemitf,
          ih k h]

/-- With no map funcs and an infallible destination, the pipe never
errors: the empty chain produces no stage error and `lineWriter` and
`bytes.Buffer` accept every write. -/
theorem processTokens_empty_chain_err (ts : List (List Byte)) :
    ∀ k, (processTokens [] infallibleDst k ts).err = none := by
  induction ts with
  | nil => intro k; rfl
  | cons t rest ih =>
    intro k
    rw [processTokens]
    by_cases hemit : (true && !([10].isSuffixOf t)) = true <;>
      simp [runChain, infallibleDst, hemit, ih]

/-- **C6.** Line-oriented consumption of the byte sequence `"a\n\nb"`
yields exactly the three lines `["a", "", "b"]` in that order, both
with zero transforms and with a pass-through transform chain; the empty
line between the two terminators is preserved as a distinct zero-length
element. -/
theorem lines_a_nl_nl_b :
    commandOutputLines [] [97, 10, 10, 98] none = ([[97], [], [98]], none) ∧
    commandOutputLines [passThroughStage] [97, 10, 10, 98] none
      = ([[97], [], [98]], none) := by
  constructor <;> decide

/-- **C4.** A transform stage that performs no write call on a line
(and accordingly reports zero bytes) removes that line from
line-oriented output — the pipe output is the same as if the line were
absent — regardless of where the line sits in the input and of the
stages before and after it in the chain; and raw byte-stream
consumption with no splitting requested (`WriteTo` with an empty map
chain) delivers the input bytes unmodified, unaffected by any
elision. -/
theorem noWrite_elides_line (pre post : List Stage) (f : Stage) (dst : Dst)
    (k : Nat) (ts1 ts2 : List (List Byte)) (t : List Byte) (wc : Bool) (c : List Byte)
    (hpre : runChain pre true t = .ran wc c)
    (hf : f c = ⟨[], 0, none⟩) :
    processTokens (pre ++ f :: post) dst k (ts1 ++ t :: ts2)
      = processTokens (pre ++ f :: post) dst k (ts1 ++ ts2) ∧
    (∀ input readErr,
      commandOutputWriteTo [] infallibleDst input readErr
        = ⟨[input], input.length, readErr⟩) := by
  refine ⟨?_, fun input readErr => by simp [commandOutputWriteTo, infallibleDst]⟩
  apply processTokens_elide (c := c)
  left
  rw [runChain_append, hpre]
  simp [runChain, hf]

/-- Witness for **C4**: with the chain `[noWriteStage]`, the middle
line of `"a\nb\nc\n"` is removed from line-oriented output (here every
line is removed, the middle one in particular), and `WriteTo` with no
maps passes `"a\nb\nc\n"` through byte-for-byte. -/
theorem noWrite_elides_line_witness :
    processTokens [noWriteStage] infallibleDst 0 ([[97]] ++ [98] :: [[99]])
        = processTokens [noWriteStage] infallibleDst 0 ([[97]] ++ [[99]]) ∧
    commandOutputWriteTo [] infallibleDst [97, 10] none = ⟨[[97, 10]], 2, none⟩ :=
  ⟨(noWrite_elides_line [] [] noWriteStage infallibleDst 0 [[97]] [[99]] [98]
      true [98] rfl rfl).1,
   (noWrite_elides_line [] [] noWriteStage infallibleDst 0 [[97]] [[99]] [98]
      true [98] rfl rfl).2 [97, 10] none⟩

/-- **C5 counterexample.** A stage that invokes write with zero-length
content on the line `"abc"` does not deliver an empty line: the line is
delivered with its previous content `"abc"`, so the claim's "delivered
as an empty line" fails (while "rather than elided" holds). -/
theorem emptyWrite_not_empty_line :
    commandOutputLines [emptyWriteStage] [97, 98, 99] none = ([[97, 98, 99]], none) ∧
    ([[97, 98, 99]] : List (List Byte)) ≠ [[]] ∧
    ([[97, 98, 99]] : List (List Byte)) ≠ [] := by
  refine ⟨by decide, by decide, by decide⟩

/-- **C5 as amended.** A stage that invokes write with zero-length
content leaves the line with the content it had when it entered that
stage and marks it via the write-was-invoked flag: when that content
does not already end in a line terminator, the line is delivered to the
destination with that content — an empty line exactly when the content
was empty — rather than elided; when the content already ends in a
terminator, the emission guard skips the write and the line is dropped.
A stage that performs no write call elides the line; the two cases
report the same byte count 0 and are distinguished only by the
write-was-invoked flag. -/
theorem emptyWrite_delivers_line (pre post : List Stage) (f g : Stage) (dst : Dst)
    (k : Nat) (t : List Byte) (wc : Bool) (c : List Byte)
    (hpre : runChain pre true t = .ran wc c)
    (hf : f c = ⟨[[]], 0, none⟩)
    (hg : g c = ⟨[], 0, none⟩) :
    ([10].isSuffixOf c = false →
      (processTokens (pre ++ f :: post) dst k [t]).writes = [c ++ [10]]) ∧
    ([10].isSuffixOf c = true →
      (processTokens (pre ++ f :: post) dst k [t]).writes = []) ∧
    (processTokens (pre ++ g :: post) dst k [t]).writes = [] := by
  have hchainf : runChain (pre ++ f :: post) true t = .broke true c := by
    rw [runChain_append, hpre]
    simp [runChain, hf]
  have hchaing : runChain (pre ++ g :: post) true t = .broke false c := by
    rw [runChain_append, hpre]
    simp [runChain, hg]
  refine ⟨?_, ?_, ?_⟩
  · intro hnl
    cases hw : (dst k (c ++ [10])).2 <;>
      simp [processTokens, hchainf, hnl, hw]
  · intro hnl
    simp [processTokens, hchainf, hnl]
  · simp [processTokens, hchaing]

/-- Witness for **C5 as amended**: on the line `"abc"` a bare
zero-write stage delivers `"abc\n"` while a bare no-write stage elides
the line; after a stage that rewrites the line to `"a\n"`, a
zero-write stage leaves content ending in a terminator and the line is
dropped. -/
theorem emptyWrite_delivers_line_witness :
    (processTokens [emptyWriteStage] infallibleDst 0 [[97, 98, 99]]).writes
        = [[97, 98, 99, 10]] ∧
    (processTokens [noWriteStage] infallibleDst 0 [[97, 98, 99]]).writes = [] ∧
    (processTokens [nlStage, emptyWriteStage] infallibleDst 0 [[120]]).writes = [] :=
  ⟨(emptyWrite_delivers_line [] [] emptyWriteStage noWriteStage infallibleDst 0
      [97, 98, 99] true [97, 98, 99] rfl rfl rfl).1 rfl,
   (emptyWrite_delivers_line [] [] emptyWriteStage noWriteStage infallibleDst 0
      [97, 98, 99] true [97, 98, 99] rfl rfl rfl).2.2,
   (emptyWrite_delivers_line [nlStage] [] emptyWriteStage noWriteStage infallibleDst 0
      [120] true [97, 10] rfl rfl rfl).2.1 rfl⟩

/-! ## Aggregator consumption façade

The `aggregator` of `src/output_aggregator.go`.  Its state is the
unread content of its reader, the eventual result of `waitFunc`
(`cmd.Wait` plus the retained stderr copy), the registered map funcs,
and the `finalized` flag.  The concurrent goroutine/channel plumbing of
each method is linearized: the read loop is modelled as draining the
reader's remaining content, then `Wait` observes the process exit.
`waitCount` is model instrumentation only: it counts how often
`waitFunc` (the process wait) has actually been executed. -/

structure AggState where
  remaining : List Byte
  exitStatus : ExecStatus
  stderr : List Byte
  mapFuncs : List Stage
  finalized : Bool
  waitCount : Nat

/-- Model of `aggregator.Wait` (`src/output_aggregator.go` lines
167-173): on a finalized aggregator return the fixed "output aggregator
has already been finalized" error without running `waitFunc`; otherwise
set the flag, run `waitFunc` once, and return `newError` of its
result. -/
def aggWait (s : AggState) : AggState × Option Err :=
  if s.finalized then (s, some .finalized)
  else
    ({ s with finalized := true, waitCount := s.waitCount + 1 },
      match newError s.exitStatus s.stderr with
      | none => none
      | some r => some (.run r))

/-- Model of `aggregator.WriteTo` (`src/output_aggregator.go` lines
131-165).  With no map funcs, `io.Copy` drains the reader into `dst`
(`written, _ := io.Copy`: the count `dst` reported is kept, the copy
error is discarded) while `Wait` runs; `Wait`'s error is returned.
Otherwise the mapped line pipe runs in parallel with `Wait`; the error
from `Wait` takes precedence in the returned value, else the pipe's
error (a stage or destination-writer failure) is returned.  The second
component is (writes to dst, written count, returned error). -/
def aggWriteTo (s : AggState) (dst : Dst) :
    AggState × (List (List Byte) × Nat × Option Err) :=
  if s.mapFuncs.isEmpty then
    let w := dst 0 s.remaining
    let r := aggWait { s with remaining := [] }
    (r.1, ([s.remaining], w.1, r.2))
  else
    let po := aggMappedLinePipe s.mapFuncs dst s.remaining
    let r := aggWait { s with remaining := [] }
    (r.1, (po.writes, po.total,
      match r.2 with
      | some e => some e
      | none => po.err))

/-- Model of `aggregator.StreamLines` (`src/output_aggregator.go` lines
35-52): the mapped line pipe feeds the callback through a `lineWriter`
while `Wait` runs; `Wait`'s error takes precedence, else the pipe's
error is returned.  The second component is the lines delivered to the
callback, the third the returned error. -/
def aggStreamLines (s : AggState) : AggState × List (List Byte) × Option Err :=
  let po := aggMappedLinePipe s.mapFuncs infallibleDst s.remaining
  let r := aggWait { s with remaining := [] }
  (r.1, linesFromWrites po.writes,
    match r.2 with
    | some e => some e
    | none => po.err)

/-- Model of `aggregator.Lines` (`src/output_aggregator.go` lines
54-89): like `StreamLines` but the lines are aggregated into a slice
that is returned together with the error (`Wait`'s error first, else
the pipe's). -/
def aggLines (s : AggState) : AggState × List (List Byte) × Option Err :=
  let po := aggMappedLinePipe s.mapFuncs infallibleDst s.remaining
  let r := aggWait { s with remaining := [] }
  (r.1, linesFromWrites po.writes,
    match r.2 with
    | some e => some e
    | none => po.err)

/-- Result of `aggregator.Read`: the returned count, the returned
error, and the bytes actually copied into the destination buffer. -/
structure ReadOut where
  count : Nat
  err : Option Err
  copied : List Byte
deriving DecidableEq

/-- Model of `aggregator.Read` (`src/output_aggregator.go` lines
109-127): on a finalized aggregator return `(0, io.EOF)` at once.
Otherwise stream everything into a scratch buffer, copy at most
`len(p)` of its bytes into the destination, and return
`buffer.Len() + 1` (the deferred `Reset` runs after the return values
are evaluated) together with `Stream`'s error. -/
def aggRead (n : Nat) (s : AggState) : AggState × ReadOut :=
  if s.finalized then (s, ⟨0, some .eofErr, []⟩)
  else
    let r := aggWriteTo s infallibleDst
    let content := r.2.1.flatten
    (r.1, ⟨content.length + 1, r.2.2.2, content.take n⟩)

/-- The terminal consumption operations of the aggregator handle. -/
inductive TermOp where
  | wait
  | stream
  | streamLines
  | lines
  | read (n : Nat)
deriving DecidableEq

/-- Whether a terminal operation is the byte-reader. -/
def isReadOp : TermOp → Bool
  | .read _ => true
  | _ => false

/-- Error and count returned by one terminal operation. -/
structure OpResult where
  err : Option Err
  count : Nat
deriving DecidableEq

/-- Dispatch one terminal consumption call on the aggregator. -/
def applyOp : TermOp → AggState → AggState × OpResult
  | .wait, s => let r := aggWait s; (r.1, ⟨r.2, 0⟩)
  | .stream, s => let r := aggWriteTo s infallibleDst; (r.1, ⟨r.2.2.2, 0⟩)
  | .streamLines, s => let r := aggStreamLines s; (r.1, ⟨r.2.2, 0⟩)
  | .lines, s => let r := aggLines s; (r.1, ⟨r.2.2, 0⟩)
  | .read n, s => let r := aggRead n s; (r.1, ⟨r.2.err, r.2.count⟩)

/-- A first terminal call on a fresh aggregator finalizes it and runs
the process wait exactly once. -/
theorem applyOp_first (op : TermOp) (s : AggState) (h1 : s.finalized = false) :
    ((applyOp op s).1).finalized = true ∧
    ((applyOp op s).1).waitCount = s.waitCount + 1 := by
  cases op <;> by_cases hm : s.mapFuncs.isEmpty <;>
    simp [applyOp, aggRead, aggWriteTo, aggStreamLines, aggLines, aggWait,
      infallibleDst, h1, hm]

/-- Any terminal call on a finalized aggregator leaves the wait count
unchanged and reports the already-finalized sentinel — except the
byte-reader, which returns `(0, io.EOF)`. -/
theorem applyOp_on_finalized (op : TermOp) (s : AggState) (h : s.finalized = true) :
    ((applyOp op s).1).waitCount = s.waitCount ∧
    (isReadOp op = false → (applyOp op s).2.err = some .finalized) ∧
    (isReadOp op = true → (applyOp op s).2 = ⟨some .eofErr, 0⟩) := by
  cases op <;> by_cases hm : s.mapFuncs.isEmpty <;>
    simp [applyOp, aggRead, aggWriteTo, aggStreamLines, aggLines, aggWait,
      infallibleDst, h, hm, isReadOp]

/-- Waiting always leaves the aggregator finalized. -/
theorem aggWait_fst_finalized (s : AggState) : ((aggWait s).1).finalized = true := by
  by_cases h : s.finalized <;> simp [aggWait, h]

/-- `WriteTo` always leaves the aggregator finalized. -/
theorem aggWriteTo_fst_finalized (s : AggState) (dst : Dst) :
    ((aggWriteTo s dst).1).finalized = true := by
  by_cases hm : s.mapFuncs.isEmpty <;> simp [aggWriteTo, hm, aggWait_fst_finalized]

/-- A stage that errors on the line `"b"` and passes other lines
through, used to exercise consumer-side failures. -/
def errOnB : Stage := fun l =>
  if l = [98] then ⟨[], 0, some (.stageErr "boom")⟩ else ⟨[l], l.length, none⟩

/-- **C7.** When a consumption call sees both a process-originated
error (abnormal exit) and a consumer-side error — a transform stage
failing on some line, or the destination writer failing on that line's
write — the process-originated error is the returned one, while the
consumer-side error still aborts the remaining per-line work
immediately: the pipe output over the whole input equals the output
with everything after the failing line removed, and the consumer-side
error is the pipe's own error. -/
theorem process_error_precedence (s : AggState) (dst : Dst)
    (ts1 ts2 : List (List Byte)) (t : List Byte) (e : Err) (c : Int)
    (hm : s.mapFuncs.isEmpty = false)
    (hscan : scanGo s.remaining = (ts1 ++ t :: ts2, false))
    (hpref : (processTokens s.mapFuncs dst 0 ts1).err = none)
    (hcons :
      runChain s.mapFuncs true t = .errored e ∨
      (∃ wc l n,
        (runChain s.mapFuncs true t = .broke wc l ∨
          runChain s.mapFuncs true t = .ran wc l) ∧
        (wc && !([10].isSuffixOf l)) = true ∧
        dst ((processTokens s.mapFuncs dst 0 ts1).writes.length) (l ++ [10])
          = (n, some e)))
    (hfin : s.finalized = false)
    (hexit : s.exitStatus = .exitError c) :
    (aggWriteTo s dst).2.2.2 = some (.run (.exec c (trimSpace s.stderr))) ∧
    processTokens s.mapFuncs dst 0 (ts1 ++ t :: ts2)
      = processTokens s.mapFuncs dst 0 (ts1 ++ [t]) ∧
    (aggWriteTo s dst).2.1 = (processTokens s.mapFuncs dst 0 (ts1 ++ [t])).writes ∧
    (processTokens s.mapFuncs dst 0 (ts1 ++ t :: ts2)).err = some e := by
  have hhead : ∀ rest,
      processTokens s.mapFuncs dst
          (0 + (processTokens s.mapFuncs dst 0 ts1).writes.length) (t :: rest)
        = ⟨(processTokens s.mapFuncs dst
              (0 + (processTokens s.mapFuncs dst 0 ts1).writes.length) [t]).writes,
            (processTokens s.mapFuncs dst
              (0 + (processTokens s.mapFuncs dst 0 ts1).writes.length) [t]).total,
            some e⟩ := by
    intro rest
    rw [Nat.zero_add]
    rcases hcons with hrc | ⟨wc, l, n, hrc, hemit, hdst⟩
    · simp [processTokens, hrc]
    · have hw : (dst ((processTokens s.mapFuncs dst 0 ts1).writes.length)
          (l ++ [10])).2 = some e := by rw [hdst]
      rcases hrc with hrc | hrc <;>
        simp [processTokens, hrc, hemit, hw]
  have happend1 := processTokens_append s.mapFuncs dst (t :: ts2) 0 ts1 hpref
  have happend2 := processTokens_append s.mapFuncs dst [t] 0 ts1 hpref
  have habort : processTokens s.mapFuncs dst 0 (ts1 ++ t :: ts2)
      = processTokens s.mapFuncs dst 0 (ts1 ++ [t]) := by
    rw [happend1, happend2, hhead ts2, hhead []]
  refine ⟨?_, habort, ?_, ?_⟩
  · simp [aggWriteTo, hm, aggWait, hfin, hexit, newError]
  · simp only [aggWriteTo, hm, Bool.false_eq_true, if_false, aggMappedLinePipe,
      hscan, habort]
  · rw [happend1, hhead ts2]

/-- Witness for **C7**, exercising both consumer-side error kinds.
Stage failure: content `"a\nb\n"`, a chain failing on `"b"`, exit
code 2 — the returned error is the process error and the pipe stops at
`"b"`.  Destination failure: content `"a\nb\nc\n"`, a pass-through
chain, a sink whose second write fails, exit code 7 — the returned
error is the process error, `"c"` is never processed, and the pipe's
own error is the sink error. -/
theorem process_error_precedence_witness :
    (aggWriteTo ⟨[97, 10, 98, 10], .exitError 2, [], [errOnB], false, 0⟩
        infallibleDst).2.2.2 = some (.run (.exec 2 (trimSpace []))) ∧
    processTokens [errOnB] infallibleDst 0 ([[97]] ++ [98] :: [])
        = processTokens [errOnB] infallibleDst 0 ([[97]] ++ [[98]]) ∧
    (aggWriteTo ⟨[97, 10, 98, 10], .exitError 2, [], [errOnB], false, 0⟩
        infallibleDst).2.1
      = (processTokens [errOnB] infallibleDst 0 ([[97]] ++ [[98]])).writes ∧
    (processTokens [errOnB] infallibleDst 0 ([[97]] ++ [98] :: [])).err
        = some (.stageErr "boom") ∧
    (aggWriteTo ⟨[97, 10, 98, 10, 99, 10], .exitError 7, [], [passThroughStage],
        false, 0⟩ (failingDst 1 (.plain "sink failed"))).2.2.2
      = some (.run (.exec 7 (trimSpace []))) ∧
    processTokens [passThroughStage] (failingDst 1 (.plain "sink failed")) 0
        ([[97]] ++ [98] :: [[99]])
      = processTokens [passThroughStage] (failingDst 1 (.plain "sink failed")) 0
        ([[97]] ++ [[98]]) ∧
    (aggWriteTo ⟨[97, 10, 98, 10, 99, 10], .exitError 7, [], [passThroughStage],
        false, 0⟩ (failingDst 1 (.plain "sink failed"))).2.1
      = (processTokens [passThroughStage] (failingDst 1 (.plain "sink failed")) 0
          ([[97]] ++ [[98]])).writes ∧
    (processTokens [passThroughStage] (failingDst 1 (.plain "sink failed")) 0
        ([[97]] ++ [98] :: [[99]])).err = some (.plain "sink failed") := by
  have h1 := process_error_precedence
    ⟨[97, 10, 98, 10], .exitError 2, [], [errOnB], false, 0⟩ infallibleDst
    [[97]] [] [98] (.stageErr "boom") 2 rfl rfl rfl (Or.inl rfl) rfl rfl
  have h2 := process_error_precedence
    ⟨[97, 10, 98, 10, 99, 10], .exitError 7, [], [passThroughStage], false, 0⟩
    (failingDst 1 (.plain "sink failed"))
    [[97]] [[99]] [98] (.plain "sink failed") 7 rfl rfl rfl
    (Or.inr ⟨true, [98], 0, Or.inr rfl, rfl, rfl⟩) rfl rfl
  exact ⟨h1.1, h1.2.1, h1.2.2.1, h1.2.2.2, h2.1, h2.2.1, h2.2.2.1, h2.2.2.2⟩

/-- **C10.** On the aggregator handle, `Read` with a destination of
length `n` copies at most `n` bytes, yet returns a count equal to the
entire buffered output length plus one — strictly more than the bytes
actually copied, and more than `n` whenever the output is at least `n`
bytes — and a subsequent `Read` on the finalized handle returns
`(0, io.EOF)` with nothing copied. -/
theorem aggregator_read_count (s : AggState) (n m : Nat)
    (h : s.finalized = false) :
    (aggRead n s).2.copied.length ≤ n ∧
    (aggRead n s).2.count = ((aggWriteTo s infallibleDst).2.1.flatten).length + 1 ∧
    (aggRead n s).2.copied.length < (aggRead n s).2.count ∧
    (n ≤ ((aggWriteTo s infallibleDst).2.1.flatten).length →
      n < (aggRead n s).2.count) ∧
    aggRead m (aggRead n s).1 = ((aggRead n s).1, ⟨0, some .eofErr, []⟩) := by
  have hfin : ((aggRead n s).1).finalized = true := by
    simp [aggRead, h, aggWriteTo_fst_finalized]
  refine ⟨?_, ?_, ?_, ?_, ?_⟩
  · simp [aggRead, h]
  · simp [aggRead, h]
  · simp only [aggRead, h, Bool.false_eq_true, if_false]
    exact Nat.lt_succ_of_le (by simp [Nat.min_le_right])
  · intro hn
    simp only [aggRead, h, Bool.false_eq_true, if_false]
    exact Nat.lt_succ_of_le hn
  · generalize hgen : (aggRead n s).1 = s1 at hfin ⊢
    simp [aggRead, hfin]

/-- Witness for **C10**: content `"hi\n"`, a 2-byte destination: 2
bytes are copied but 4 is returned, and the follow-up `Read` yields
`(0, io.EOF)`. -/
theorem aggregator_read_count_witness :
    (aggRead 2 ⟨[104, 105, 10], .success, [], [], false, 0⟩).2.copied.length ≤ 2 ∧
    (aggRead 2 ⟨[104, 105, 10], .success, [], [], false, 0⟩).2.count
        = ((aggWriteTo ⟨[104, 105, 10], .success, [], [], false, 0⟩
            infallibleDst).2.1.flatten).length + 1 ∧
    (aggRead 2 ⟨[104, 105, 10], .success, [], [], false, 0⟩).2.copied.length
        < (aggRead 2 ⟨[104, 105, 10], .success, [], [], false, 0⟩).2.count ∧
    2 < (aggRead 2 ⟨[104, 105, 10], .success, [], [], false, 0⟩).2.count ∧
    aggRead 5 (aggRead 2 ⟨[104, 105, 10], .success, [], [], false, 0⟩).1
        = ((aggRead 2 ⟨[104, 105, 10], .success, [], [], false, 0⟩).1,
            ⟨0, some .eofErr, []⟩) :=
  ⟨(aggregator_read_count ⟨[104, 105, 10], .success, [], [], false, 0⟩ 2 5 rfl).1,
   (aggregator_read_count ⟨[104, 105, 10], .success, [], [], false, 0⟩ 2 5 rfl).2.1,
   (aggregator_read_count ⟨[104, 105, 10], .success, [], [], false, 0⟩ 2 5 rfl).2.2.1,
   (aggregator_read_count ⟨[104, 105, 10], .success, [], [], false, 0⟩ 2 5 rfl).2.2.2.1
     (by decide),
   (aggregator_read_count ⟨[104, 105, 10], .success, [], [], false, 0⟩ 2 5
      rfl).2.2.2.2⟩

/-! ## Buffered relay pipe and completion coordinator -/

/-- Modelled from the spec: the buffered relay pipe
(`nio.Pipe(outputBuffer)` from the external dependency
`github.com/djherbis/nio`, not part of this repository).  Spec §4.1:
unbounded FIFO byte channel; `closeWithError(err)` closes the write
half exactly once; "after `closeWithError(err)` and buffer exhaustion,
reads return `err` (or end-of-stream if nil)" — matching the comment on
`CloseWithError` in `attachOutputAndRun` (`src/output.go` lines
131-132).  `closedWith = none` means the write half is open;
`some none` closed cleanly; `some (some e)` closed with error `e`. -/
structure NioPipe where
  buf : List Byte
  closedWith : Option (Option Err)

/-- Modelled from the spec: a pipe write enqueues bytes while the write
half is open. -/
def pipeWrite (p : NioPipe) (bs : List Byte) : NioPipe :=
  if p.closedWith = none then { p with buf := p.buf ++ bs } else p

/-- Modelled from the spec: `closeWithError` closes the write half
exactly once; later closes are no-ops. -/
def pipeCloseWithError (p : NioPipe) (e : Option Err) : NioPipe :=
  if p.closedWith = none then { p with closedWith := some e } else p

/-- Observable result of one pipe read. -/
inductive ReadRes where
  | data (bs : List Byte)
  | eof
  | errored (e : Err)
  | wouldBlock
deriving DecidableEq

/-- Modelled from the spec: a read returns buffered bytes while any
remain; only on an exhausted buffer does it surface end-of-stream or
the close error, and it blocks when the write half is still open. -/
def pipeRead (p : NioPipe) (n : Nat) : ReadRes × NioPipe :=
  if p.buf.isEmpty then
    match p.closedWith with
    | none => (.wouldBlock, p)
    | some none => (.eof, p)
    | some (some e) => (.errored e, p)
  else (.data (p.buf.take n), { p with buf := p.buf.drop n })

/-- Reading a buffer to exhaustion, then once more: the bytes a
consumer obtains, and the terminal result it then observes. -/
def drainBuf : List Byte → Option (Option Err) → List Byte × ReadRes
  | [], c =>
    ([], match c with
      | none => .wouldBlock
      | some none => .eof
      | some (some e) => .errored e)
  | b :: bs, c =>
    let r := drainBuf bs c
    (b :: r.1, r.2)

/-- Everything a consumer reading the pipe to the end observes. -/
def pipeDrain (p : NioPipe) : List Byte × ReadRes :=
  drainBuf p.buf p.closedWith

/-- Model of the `waitAndCloseFunc` closure of `attachOutputAndRun`
(`src/output.go` lines 129-135): `cmd.Wait()` returns only after the
process has exited and its output has been flushed into the pipe
(`pending` are the not-yet-enqueued process bytes), then the write half
is closed with `newError` of the exit status and the stderr copy, and
that error is returned. -/
def waitAndCloseFunc (pending stderrBytes : List Byte) (st : ExecStatus)
    (p : NioPipe) : NioPipe × Option Err :=
  let e : Option Err :=
    match newError st stderrBytes with
    | none => none
    | some r => some (.run r)
  (pipeCloseWithError (pipeWrite p pending) e, e)

/-- Draining a buffer yields exactly the buffer, then the terminal
result determined by the close state. -/
theorem drainBuf_eq (bs : List Byte) (c : Option (Option Err)) :
    drainBuf bs c =
      (bs, match c with
        | none => .wouldBlock
        | some none => .eof
        | some (some e) => .errored e) := by
  induction bs with
  | nil => rfl
  | cons b rest ih => simp [drainBuf, ih]

/-- **C3.** Every byte the process wrote is enqueued into the relay
pipe before its write half is closed with the terminal error: after
`waitAndCloseFunc`, the pipe holds all previously buffered bytes
followed by all pending process bytes, a full drain delivers exactly
those bytes before the terminal result, and a single read can only
surface an error once the buffer is empty — the terminal error never
pre-empts buffered valid output. -/
theorem output_enqueued_before_close (p : NioPipe) (pending stderrBytes : List Byte)
    (st : ExecStatus) (hopen : p.closedWith = none) :
    ((waitAndCloseFunc pending stderrBytes st p).1).buf = p.buf ++ pending ∧
    pipeDrain (waitAndCloseFunc pending stderrBytes st p).1
      = (p.buf ++ pending,
          match (waitAndCloseFunc pending stderrBytes st p).2 with
          | none => .eof
          | some e => .errored e) ∧
    (∀ q n e, (pipeRead q n).1 = .errored e → q.buf = []) := by
  refine ⟨?_, ?_, ?_⟩
  · simp [waitAndCloseFunc, pipeWrite, pipeCloseWithError, hopen]
  · simp only [waitAndCloseFunc, pipeWrite, pipeCloseWithError, hopen, if_true,
      eq_self_iff_true, pipeDrain]
    simp [drainBuf_eq]
    cases newError st stderrBytes <;> simp
  · intro q n e hr
    by_cases hq : q.buf.isEmpty
    · simpa using hq
    · simp only [pipeRead, hq, Bool.false_eq_true, if_false] at hr
      exact absurd hr (by simp)

/-- Witness for **C3**: two buffered bytes, one pending byte, exit
code 5: the closed pipe holds all three bytes and drains to them before
the run error. -/
theorem output_enqueued_before_close_witness :
    ((waitAndCloseFunc [3] [] (.exitError 5) ⟨[1, 2], none⟩).1).buf = [1, 2] ++ [3] ∧
    pipeDrain (waitAndCloseFunc [3] [] (.exitError 5) ⟨[1, 2], none⟩).1
      = ([1, 2] ++ [3],
          match (waitAndCloseFunc [3] [] (.exitError 5) ⟨[1, 2], none⟩).2 with
          | none => .eof
          | some e => .errored e) :=
  ⟨(output_enqueued_before_close ⟨[1, 2], none⟩ [3] [] (.exitError 5) rfl).1,
   (output_enqueued_before_close ⟨[1, 2], none⟩ [3] [] (.exitError 5) rfl).2.1⟩

/-! ## Materialize-text -/

/-- Model of `strings.TrimSuffix`: drop the suffix once when present,
otherwise return the string unchanged. -/
def goTrimSuffix (s suffix : List Byte) : List Byte :=
  if suffix.isSuffixOf s then s.take (s.length - suffix.length) else s

/-- Model of `io.ReadAll(o)` inside `commandOutput.String`
(`src/output.go` lines 190-196): `o.Read` drains the relay pipe, so
`ReadAll` returns the whole captured content, and the pipe's close
error if any (end-of-stream is success). -/
def readAllOutput (content : List Byte) (closeErr : Option Err) :
    List Byte × Option Err :=
  (content, closeErr)

/-- Model of `commandOutput.String` (`src/output.go` lines 190-196): on
a read error return `("", err)`; otherwise trim one trailing newline
from the collected bytes. -/
def commandOutputString (content : List Byte) (closeErr : Option Err) :
    List Byte × Option Err :=
  match readAllOutput content closeErr with
  | (_, some e) => ([], some e)
  | (b, none) => (goTrimSuffix b [10], none)

/-- Model of `commandOutput.Stream` into an in-memory buffer with no
transforms (`src/output.go` lines 144-147 and 206-215): the buffer
receives the captured bytes unchanged; the pipe's close error is
returned. -/
def commandOutputStreamBuffer (content : List Byte) (closeErr : Option Err) :
    List Byte × Option Err :=
  (content, closeErr)

/-- **C8.** For a command whose captured output is the byte sequence
`content`, materialize-text returns exactly what streaming that output
into an in-memory buffer yields with one trailing line terminator
trimmed from the end; the trim removes exactly one trailing newline
when one is present and leaves the result unchanged when the output
has no trailing terminator. -/
theorem string_is_trimmed_stream (content s : List Byte) :
    (commandOutputString content none).1
        = goTrimSuffix (commandOutputStreamBuffer content none).1 [10] ∧
    goTrimSuffix (s ++ [10]) [10] = s ∧
    ([10].isSuffixOf s = false → goTrimSuffix s [10] = s) := by
  refine ⟨rfl, ?_, ?_⟩
  · have hs : [10].isSuffixOf (s ++ [10]) = true := by simp [List.isSuffixOf]
    simp [goTrimSuffix, hs]
  · intro h
    simp [goTrimSuffix, h]

/-- Witness for **C8**: output `"ok\n"` materializes to `"ok"`, and
`"ok"` (no trailing terminator) is left unchanged by the trim. -/
theorem string_is_trimmed_stream_witness :
    (commandOutputString [111, 107, 10] none).1
        = goTrimSuffix (commandOutputStreamBuffer [111, 107, 10] none).1 [10] ∧
    goTrimSuffix ([111, 107] ++ [10]) [10] = [111, 107] ∧
    goTrimSuffix [111, 107] [10] = [111, 107] :=
  ⟨(string_is_trimmed_stream [111, 107, 10] [111, 107]).1,
   (string_is_trimmed_stream [111, 107, 10] [111, 107]).2.1,
   (string_is_trimmed_stream [111, 107, 10] [111, 107]).2.2 rfl⟩

/-! ## The commandOutput handle

The `commandOutput` implementation of `src/output.go` (lines 62-78):
the handle owns the read side of the relay pipe and a
`sync.Once`-guarded `waitAndCloseFunc`.  Every terminal consumption
method first fires `go o.waitAndClose()` — whose returned error it
discards — and then consumes the pipe; the linearized model runs
`waitAndClose` first, since a full consumption blocks until the pipe
closes anyway.  `waitCount` is model instrumentation only: it counts
executions of `waitAndCloseFunc`. -/

/-- The error a drained reader of the pipe surfaces: the close error if
the write half was closed with one, nothing (EOF) otherwise. -/
def pipeCloseErr (p : NioPipe) : Option Err :=
  match p.closedWith with
  | some (some e) => some e
  | _ => none

/-- State of a `commandOutput` handle: the relay pipe, the process
bytes not yet flushed into it, the eventual exit status and stderr
copy, the registered map funcs, whether `Wait` has closed the read side
(`o.reader.Close()`), and the `sync.Once` flag. -/
structure CmdOutState where
  pipe : NioPipe
  pending : List Byte
  exitStatus : ExecStatus
  stderr : List Byte
  mapFuncs : List Stage
  readerClosed : Bool
  consumed : Bool
  waitCount : Nat

/-- Model of `commandOutput.waitAndClose` (`src/output.go` lines
227-235): when the `sync.Once` has already fired, return the fixed
"output has already been consumed" error without re-running
`waitAndCloseFunc`; otherwise run it once — waiting for the process,
flushing its bytes, and closing the pipe's write half with the
resulting error. -/
def waitAndClose (s : CmdOutState) : CmdOutState × Option Err :=
  if s.consumed then (s, some .alreadyConsumed)
  else
    let r := waitAndCloseFunc s.pending s.stderr s.exitStatus s.pipe
    ({ s with
        pipe := r.1
        pending := []
        consumed := true
        waitCount := s.waitCount + 1 }, r.2)

/-- The terminal consumption operations of the `commandOutput`
handle. -/
inductive CmdTermOp where
  | wait
  | stream
  | streamLines
  | lines
  | text
  | read (n : Nat)
deriving DecidableEq

/-- Whether a `commandOutput` terminal operation is `Wait`. -/
def isCmdWaitOp : CmdTermOp → Bool
  | .wait => true
  | _ => false

/-- Dispatch one terminal consumption call on the `commandOutput`
handle, returning its error.  `Wait` (lines 217-222) returns
`waitAndClose`'s error and closes the read side.  The other methods
fire `go o.waitAndClose()` — its error discarded — and consume the
pipe: on a closed read side every read fails with `io.ErrClosedPipe`;
otherwise `Stream`/`WriteTo` (206-215), `StreamLines` (149-154),
`Lines` (156-175), `String` (190-196) and `Read` (198-202) observe the
drained pipe's bytes and close state. -/
def applyCmdOp : CmdTermOp → CmdOutState → CmdOutState × Option Err
  | .wait, s =>
    let r := waitAndClose s
    ({ r.1 with readerClosed := true }, r.2)
  | .stream, s =>
    let s1 := (waitAndClose s).1
    if s1.readerClosed then (s1, some .closedPipe)
    else
      let po := commandOutputWriteTo s1.mapFuncs infallibleDst s1.pipe.buf
        (pipeCloseErr s1.pipe)
      ({ s1 with pipe := { s1.pipe with buf := [] } }, po.err)
  | .streamLines, s =>
    let s1 := (waitAndClose s).1
    if s1.readerClosed then (s1, some .closedPipe)
    else
      let po := mappedLinePipe s1.mapFuncs infallibleDst s1.pipe.buf
        (pipeCloseErr s1.pipe)
      ({ s1 with pipe := { s1.pipe with buf := [] } }, po.err)
  | .lines, s =>
    let s1 := (waitAndClose s).1
    if s1.readerClosed then (s1, some .closedPipe)
    else
      let po := mappedLinePipe s1.mapFuncs infallibleDst s1.pipe.buf
        (pipeCloseErr s1.pipe)
      ({ s1 with pipe := { s1.pipe with buf := [] } }, po.err)
  | .text, s =>
    let s1 := (waitAndClose s).1
    if s1.readerClosed then (s1, some .closedPipe)
    else
      let r := commandOutputString s1.pipe.buf (pipeCloseErr s1.pipe)
      ({ s1 with pipe := { s1.pipe with buf := [] } }, r.2)
  | .read n, s =>
    let s1 := (waitAndClose s).1
    if s1.readerClosed then (s1, some .closedPipe)
    else
      let r := pipeRead s1.pipe n
      ({ s1 with pipe := r.2 },
        match r.1 with
        | .data _ => none
        | .eof => some .eofErr
        | .errored e => some e
        | .wouldBlock => none)

/-- Reading the pipe never changes its close state. -/
theorem pipeRead_closedWith (p : NioPipe) (n : Nat) :
    ((pipeRead p n).2).closedWith = p.closedWith := by
  rw [pipeRead]
  by_cases h : p.buf.isEmpty
  · simp only [h, if_true]
    cases hc : p.closedWith with
    | none => simp [hc]
    | some o => cases o <;> simp_all
  · simp [h]

/-- A first terminal call on a fresh `commandOutput` handle fires the
single wait, leaves the map funcs alone, and closes the pipe's write
half with either no error (clean exit) or a wrapped run error. -/
theorem applyCmdOp_first (op : CmdTermOp) (s : CmdOutState)
    (h1 : s.consumed = false) (hopen : s.pipe.closedWith = none) :
    ((applyCmdOp op s).1).consumed = true ∧
    ((applyCmdOp op s).1).waitCount = s.waitCount + 1 ∧
    ((applyCmdOp op s).1).mapFuncs = s.mapFuncs ∧
    (((applyCmdOp op s).1).pipe.closedWith = some none ∨
      ∃ re, ((applyCmdOp op s).1).pipe.closedWith = some (some (Err.run re))) := by
  have hclose : ((waitAndClose s).1).pipe.closedWith = some none ∨
      ∃ re, ((waitAndClose s).1).pipe.closedWith = some (some (Err.run re)) := by
    cases hne : newError s.exitStatus s.stderr with
    | none =>
      left
      simp [waitAndClose, h1, waitAndCloseFunc, pipeCloseWithError, pipeWrite,
        hopen, hne]
    | some re =>
      right
      exact ⟨re, by
        simp [waitAndClose, h1, waitAndCloseFunc, pipeCloseWithError, pipeWrite,
          hopen, hne]⟩
  cases op <;>
    by_cases hrc : ((waitAndClose s).1).readerClosed <;>
    simp_all [applyCmdOp, waitAndClose, h1, pipeRead_closedWith]

/-- Any terminal call on an already-consumed `commandOutput` handle
with no transforms does not run the wait again; `Wait` returns the
"already consumed" sentinel, and every other method returns something
else — the drained pipe's close state (no error or the run error), a
closed-pipe error after `Wait`, end-of-stream, or the scanner's
too-long error — never the already-consumed error. -/
theorem applyCmdOp_on_consumed (op : CmdTermOp) (s : CmdOutState)
    (hc : s.consumed = true) (hm : s.mapFuncs = [])
    (hcl : s.pipe.closedWith = some none ∨
      ∃ re, s.pipe.closedWith = some (some (Err.run re))) :
    ((applyCmdOp op s).1).waitCount = s.waitCount ∧
    (isCmdWaitOp op = true → (applyCmdOp op s).2 = some .alreadyConsumed) ∧
    (isCmdWaitOp op = false → (applyCmdOp op s).2 ≠ some .alreadyConsumed) := by
  have hwc : waitAndClose s = (s, some .alreadyConsumed) := by
    simp [waitAndClose, hc]
  have hpt : ∀ ts, (processTokens ([] : List Stage) infallibleDst 0 ts).err = none :=
    fun ts => processTokens_empty_chain_err ts 0
  cases op <;>
    by_cases hrc : s.readerClosed <;>
    rcases hcl with hcl | ⟨re, hcl⟩ <;>
    by_cases hbuf : s.pipe.buf.isEmpty <;>
    by_cases hlong : (scanGo s.pipe.buf).2 = true <;>
    simp [applyCmdOp, hwc, hrc, hm, isCmdWaitOp, commandOutputWriteTo,
      mappedLinePipe, commandOutputString, readAllOutput, infallibleDst,
      pipeCloseErr, pipeRead, hcl, hbuf, hlong, hpt]

/-- **C1 counterexample.** A second terminal consumption call does not
always return an "already consumed" error.  On the aggregator handle,
a first `Wait` followed by a `Read` yields `(0, io.EOF)` — the
end-of-stream sentinel, not the finalized error.  On the
`commandOutput` handle, after a first `Lines` on a cleanly exiting
process, a second `Lines` discards the already-consumed sentinel of its
`go waitAndClose()` and returns no error at all. -/
theorem second_call_counterexample :
    (applyOp (.read 8) (applyOp .wait ⟨[104, 105, 10], .success, [], [], false, 0⟩).1).2
        = ⟨some .eofErr, 0⟩ ∧
    some Err.eofErr ≠ some Err.finalized ∧
    (applyCmdOp .lines (applyCmdOp .lines
        ⟨⟨[104, 105, 10], none⟩, [], .success, [], [], false, false, 0⟩).1).2
      = none ∧
    (none : Option Err) ≠ some Err.alreadyConsumed :=
  ⟨rfl, by decide, rfl, by decide⟩

/-- **C1 as amended.** After one terminal consumption method has run on
a handle, the process-wait function is not executed again — at most
once per handle under repeated invocation, on both implementations.  A
second `Wait` returns the "already finalized" (aggregator) or "already
consumed" (`commandOutput`) error.  On the aggregator handle a second
`Stream`, `StreamLines` or `Lines` also returns the finalized error,
but a second `Read` returns `(0, io.EOF)`.  On the `commandOutput`
handle (with no transforms registered) a second `Stream`,
`StreamLines`, `Lines`, `String` or `Read` never returns the
already-consumed error: it observes the drained, closed pipe instead —
the run error, end-of-stream, a closed-pipe error after `Wait`, or no
error at all after a clean exit. -/
theorem handle_single_fire (sA : AggState) (op1 op2 : TermOp)
    (sC : CmdOutState) (cop1 cop2 : CmdTermOp)
    (hA1 : sA.finalized = false) (hA2 : sA.waitCount = 0)
    (hC1 : sC.consumed = false) (hC2 : sC.waitCount = 0)
    (hC3 : sC.mapFuncs = []) (hC4 : sC.pipe.closedWith = none) :
    ((applyOp op1 sA).1).waitCount = 1 ∧
    ((applyOp op2 (applyOp op1 sA).1).1).waitCount = 1 ∧
    (isReadOp op2 = false → (applyOp op2 (applyOp op1 sA).1).2.err = some .finalized) ∧
    (isReadOp op2 = true → (applyOp op2 (applyOp op1 sA).1).2 = ⟨some .eofErr, 0⟩) ∧
    ((applyCmdOp cop1 sC).1).waitCount = 1 ∧
    ((applyCmdOp cop2 (applyCmdOp cop1 sC).1).1).waitCount = 1 ∧
    (isCmdWaitOp cop2 = true →
      (applyCmdOp cop2 (applyCmdOp cop1 sC).1).2 = some .alreadyConsumed) ∧
    (isCmdWaitOp cop2 = false →
      (applyCmdOp cop2 (applyCmdOp cop1 sC).1).2 ≠ some .alreadyConsumed) := by
  obtain ⟨hfin, hcount⟩ := applyOp_first op1 sA hA1
  rw [hA2] at hcount
  obtain ⟨hc2, herr, hread⟩ := applyOp_on_finalized op2 (applyOp op1 sA).1 hfin
  obtain ⟨hccons, hccount, hcmaps, hcclose⟩ := applyCmdOp_first cop1 sC hC1 hC4
  rw [hC2] at hccount
  rw [hC3] at hcmaps
  obtain ⟨hc2c, herrc, hnotc⟩ :=
    applyCmdOp_on_consumed cop2 (applyCmdOp cop1 sC).1 hccons hcmaps hcclose
  exact ⟨hcount, by rw [hc2, hcount], herr, hread,
    hccount, by rw [hc2c, hccount], herrc, hnotc⟩

/-- Witness for **C1 as amended**: a concrete aggregator (first call
`Lines`, second `Stream`, separately second `Read`) and a concrete
`commandOutput` handle (first call `Lines`, second `Wait`, separately
second `String`). -/
theorem handle_single_fire_witness :
    ((applyOp .lines ⟨[104, 105, 10], .exitError 3, [], [], false, 0⟩).1).waitCount
        = 1 ∧
    ((applyOp .stream (applyOp .lines
        ⟨[104, 105, 10], .exitError 3, [], [], false, 0⟩).1).1).waitCount = 1 ∧
    (applyOp .stream (applyOp .lines
        ⟨[104, 105, 10], .exitError 3, [], [], false, 0⟩).1).2.err = some .finalized ∧
    (applyOp (.read 4) (applyOp .lines
        ⟨[104, 105, 10], .exitError 3, [], [], false, 0⟩).1).2 = ⟨some .eofErr, 0⟩ ∧
    ((applyCmdOp .lines
        ⟨⟨[104, 105, 10], none⟩, [], .exitError 3, [], [], false, false, 0⟩).1).waitCount
      = 1 ∧
    ((applyCmdOp .wait (applyCmdOp .lines
        ⟨⟨[104, 105, 10], none⟩, [], .exitError 3, [], [], false, false,
          0⟩).1).1).waitCount = 1 ∧
    (applyCmdOp .wait (applyCmdOp .lines
        ⟨⟨[104, 105, 10], none⟩, [], .exitError 3, [], [], false, false, 0⟩).1).2
      = some .alreadyConsumed ∧
    (applyCmdOp .text (applyCmdOp .lines
        ⟨⟨[104, 105, 10], none⟩, [], .exitError 3, [], [], false, false, 0⟩).1).2
      ≠ some .alreadyConsumed := by
  have h1 := handle_single_fire ⟨[104, 105, 10], .exitError 3, [], [], false, 0⟩
    .lines .stream ⟨⟨[104, 105, 10], none⟩, [], .exitError 3, [], [], false, false, 0⟩
    .lines .wait rfl rfl rfl rfl rfl rfl
  have h2 := handle_single_fire ⟨[104, 105, 10], .exitError 3, [], [], false, 0⟩
    .lines (.read 4) ⟨⟨[104, 105, 10], none⟩, [], .exitError 3, [], [], false, false, 0⟩
    .lines .text rfl rfl rfl rfl rfl rfl
  exact ⟨h1.1, h1.2.1, h1.2.2.1 rfl, h2.2.2.2.1 rfl, h1.2.2.2.2.1,
    h1.2.2.2.2.2.1, h1.2.2.2.2.2.2.1 rfl, h2.2.2.2.2.2.2.2 rfl⟩

/-! ## Long lines -/

/-- A byte stream without a newline is a single unterminated segment. -/
theorem splitSegs_no_newline (l : List Byte) (h : ∀ c ∈ l, c ≠ 10) :
    splitSegs l = [(l, false)] := by
  induction l with
  | nil => rfl
  | cons c cs ih =>
    have hc : c ≠ 10 := h c (List.mem_cons_self c cs)
    have hcs : splitSegs cs = [(cs, false)] :=
      ih fun d hd => h d (List.mem_cons_of_mem c hd)
    simp only [splitSegs, List.foldr_cons] at hcs ⊢
    rw [hcs]
    simp [hc]

/-- A segment of `maxScanTokenSize` or more bytes stops the scan with
the too-long flag and no token. -/
theorem scanWalk_too_long (t : List Byte) (term : Bool)
    (rest : List (List Byte × Bool)) (h : maxScanTokenSize ≤ t.length) :
    scanWalk ((t, term) :: rest) = ([], true) := by
  rw [scanWalk, if_neg]
  omega

/-- **C9 divergence** (evidence for the code bug).  On an input that is
one line of 65537 bytes — longer than the scanner's 65536-byte buffer —
`aggregator.mappedLinePipe` (`src/output_aggregator.go`) returns no
error and delivers nothing: the nonempty line is silently dropped,
because the function discards `scanner.Err()`.  The sibling
`commandOutput.mappedLinePipe` (`src/output.go`) reports
`bufio.ErrTooLong` on the same input, as the claim requires. -/
theorem aggregator_drops_long_line_silently :
    aggMappedLinePipe [] infallibleDst (List.replicate 65537 97) = ⟨[], 0, none⟩ ∧
    mappedLinePipe [] infallibleDst (List.replicate 65537 97) none
        = ⟨[], 0, some .tooLong⟩ ∧
    List.replicate 65537 97 ≠ ([] : List Byte) := by
  have hno : ∀ c ∈ List.replicate 65537 97, c ≠ (10 : Byte) := by
    intro c hc
    rw [List.eq_of_mem_replicate hc]
    decide
  have hne : List.replicate 65537 97 ≠ ([] : List Byte) := by
    intro h
    have hlen := congrArg List.length h
    rw [List.length_replicate, List.length_nil] at hlen
    omega
  have hsegs : scanSegs (List.replicate 65537 97)
      = [(List.replicate 65537 97, false)] := by
    rw [scanSegs, splitSegs_no_newline _ hno]
    rw [if_neg]
    intro h
    rw [List.getLast?_singleton, Option.some_inj, Prod.mk.injEq] at h
    exact hne h.1
  have hlt : maxScanTokenSize ≤ (List.replicate 65537 (97 : Byte)).length := by
    rw [List.length_replicate, maxScanTokenSize]
    omega
  have hscan : scanGo (List.replicate 65537 97) = ([], true) := by
    rw [scanGo, hsegs]
    exact scanWalk_too_long _ _ _ hlt
  refine ⟨?_, ?_, hne⟩
  · rw [aggMappedLinePipe, hscan]
    rfl
  · rw [mappedLinePipe, hscan]
    rfl

/-- **C2.** `exitCode(err)` returns 0 when `err` is nil, the carried
exit code when `err` implements the `ExitCoder` contract, and 1 for
every other non-nil error; it is total, so it never fails on an
unrecognized error shape. -/
theorem ExitCode_contract (e : Err) (c : Int) :
    ExitCode none = 0 ∧
    (asExitCoder e = some c → ExitCode (some e) = c) ∧
    (asExitCoder e = none → ExitCode (some e) = 1) := by
  refine ⟨rfl, ?_, ?_⟩ <;> intro h <;> simp [ExitCode, h]

/-- Witness for **C2** at concrete errors: an exit-code-carrying error
yields its code, and a plain error yields 1. -/
theorem ExitCode_contract_witness :
    ExitCode (some (Err.run (RunError.exec 123 []))) = 123 ∧
    ExitCode (some (Err.plain "exec failed")) = 1 :=
  ⟨(ExitCode_contract (Err.run (RunError.exec 123 [])) 123).2.1 rfl,
   (ExitCode_contract (Err.plain "exec failed") 123).2.2 rfl⟩
